import Mathlib

/-!
Verification of the Rigaku Oxford Diffraction (ROD / RODHyPix) image reader
in `src/core/rod_image_reader.py`.

The development shallowly embeds the TY6 line codec (both the pure-Python
decoder `_decode_ty6_oneline` and the Numba decoder `_decode_ty6_oneline_numba`),
the per-line image assembler `_get_raw_data_ty6_python`, the binary header
parser `_read_binary_header`, the format sniffer `understand`, and the
compression dispatch of `get_raw_data`.

Modelling conventions:
- a byte buffer of unbounded extent (a numpy `uint8` array all of whose
  reads stay in bounds) is a total function `ByteStream := Nat → Nat`, with
  the hypothesis `∀ i, L i < 256` stating that its values are bytes;
- where in-bounds behaviour matters (the image assembler, claim C6) the
  buffer is a `List Nat` and every read is an `Option`, `none` standing for
  the Python `IndexError` raised by an out-of-bounds scalar access or the
  `ValueError`/`IndexError` raised by `.view(...)` on a too-short slice;
- numpy `int32` stores wrap two's-complement: `wrap32` sends an unbounded
  integer to its representative in `[-2^31, 2^31)`;
- IEEE-754 float64 header fields are modelled by their little-endian 64-bit
  bit patterns (a `Nat`), which keeps the offset/layout content of the
  claims while avoiding floating-point semantics;
- Python exceptions raised by the reader are the constructors of `PyError`
  (`ValueError` is the error the specification calls `FormatError`, and the
  `NotImplementedError` of `get_raw_data` is the error the specification's
  taxonomy calls `DecodeError` for an unsupported compression tag).
-/

namespace RodReader

/-- A byte buffer modelled as a total function from index to byte value. -/
abbrev ByteStream := Nat → Nat

/-- Two's-complement wrap of an integer into a signed 32-bit value, the
effect of storing into a numpy `int32` array. -/
def wrap32 (z : Int) : Int := (z + 2147483648) % 4294967296 - 2147483648

/-- Little-endian unsigned 16-bit read (the bytes reinterpreted by
`ndarray.view(np.int16)` before sign interpretation). -/
def readU16 (L : ByteStream) (i : Nat) : Nat := (L i + 256 * L (i + 1)) % 65536

/-- Little-endian signed 16-bit read, the semantics of
`linedata[i:i+2].view(np.int16)[0]`. -/
def readI16 (L : ByteStream) (i : Nat) : Int :=
  if readU16 L i < 32768 then (readU16 L i : Int) else (readU16 L i : Int) - 65536

/-- Little-endian unsigned 32-bit read. -/
def readU32 (L : ByteStream) (i : Nat) : Nat :=
  (L i + 256 * L (i + 1) + 65536 * L (i + 2) + 16777216 * L (i + 3)) % 4294967296

/-- Little-endian signed 32-bit read, the semantics of
`linedata[i:i+4].view(np.int32)[0]`. -/
def readI32 (L : ByteStream) (i : Nat) : Int :=
  if readU32 L i < 2147483648 then (readU32 L i : Int) else (readU32 L i : Int) - 4294967296

/-- Little-endian unsigned 64-bit read, used for the bit pattern of the
float64 fields of the binary header. -/
def readU64 (L : ByteStream) (i : Nat) : Nat :=
  (L i + 256 * L (i + 1) + 65536 * L (i + 2) + 16777216 * L (i + 3)
      + 4294967296 * L (i + 4) + 1099511627776 * L (i + 5)
      + 281474976710656 * L (i + 6) + 72057594037927936 * L (i + 7))
    % 18446744073709551616

/-- Sign extension of an (assumed 16-bit) unsigned value, the phrasing used
by the specification for "little-endian signed 16-bit integer". -/
def sint16 (u : Nat) : Int := if u < 32768 then (u : Int) else (u : Int) - 65536

/-- Sign extension of an (assumed 32-bit) unsigned value, the phrasing used
by the specification for "little-endian signed 32-bit integer". -/
def sint32 (u : Nat) : Int := if u < 2147483648 then (u : Int) else (u : Int) - 4294967296

/-! ### The pure-Python TY6 line decoder, `_decode_ty6_oneline` (lines 493-585) -/

/-- First-pixel decode (lines 517-528): returns the value stored into
`ret[0]` and the stream position after the consumed bytes. -/
def decode_firstpx (L : ByteStream) : Int × Nat :=
  if L 0 < 254 then (wrap32 ((L 0 : Int) - 127), 1)
  else if L 0 = 255 then (wrap32 (readI32 L 1), 5)
  else (wrap32 (readI16 L 1), 3)

/-- The accumulator loop `v |= linedata[ipos] << (8*j)` over `n` bytes
starting at position `i` (lines 542-545 and the identical Numba loop). -/
def packLE (L : ByteStream) (i : Nat) : Nat → Nat
  | 0 => 0
  | n + 1 => packLE L i n ||| (L (i + n) <<< (8 * n))

/-- Zero-point bias of a sub-block (lines 538-540). -/
def zero_at (nbit : Nat) : Nat := if 1 < nbit then (1 <<< (nbit - 1)) - 1 else 0

/-- The 8 raw sub-block values unpacked from the packed integer `v`
with bit width `nbit`, each stored through an `np.int32` cast
(lines 547-551). -/
def rawlist (nbit v : Nat) : List Int :=
  (List.range 8).map fun j =>
    wrap32 ((((v >>> (nbit * j)) &&& ((1 <<< nbit) - 1) : Nat) : Int) - (zero_at nbit : Int))

/-- Escape resolution and delta accumulation over the 16 raw values of a
block (lines 553-565): threads the stream position and the previous decoded
value, and returns the decoded values, the final position, and the final
previous value. -/
def resolve (L : ByteStream) : List Int → Nat → Int → List Int × Nat × Int
  | [], ipos, prev => ([], ipos, prev)
  | r :: rs, ipos, prev =>
    let s : Int × Nat :=
      if 127 ≤ r then
        if 128 ≤ r then (readI32 L ipos, ipos + 4) else (readI16 L ipos, ipos + 2)
      else (r, ipos)
    let v := wrap32 (prev + s.1)
    let t := resolve L rs s.2 v
    (v :: t.1, t.2.1, t.2.2)

/-- One full 16-pixel block (lines 531-565): bit-type byte, two unpacked
sub-blocks, then escape resolution of the 16 raw values. -/
def decode_block (L : ByteStream) (ipos : Nat) (prev : Int) : List Int × Nat × Int :=
  let bittype := L ipos
  let nbit1 := bittype &&& 15
  let nbit2 := (bittype >>> 4) &&& 15
  let raws := rawlist nbit1 (packLE L (ipos + 1) nbit1)
      ++ rawlist nbit2 (packLE L (ipos + 1 + nbit1) nbit2)
  resolve L raws (ipos + 1 + nbit1 + nbit2) prev

/-- The `for k in range(nblock)` loop over full blocks. -/
def decode_blocks (L : ByteStream) : Nat → Nat → Int → List Int × Nat × Int
  | 0, ipos, prev => ([], ipos, prev)
  | k + 1, ipos, prev =>
    let b := decode_block L ipos prev
    let t := decode_blocks L k b.2.1 b.2.2
    (b.1 ++ t.1, t.2.1, t.2.2)

/-- The tail-remainder loop (lines 568-583): each remaining pixel is decoded
by the 3-way escape rule and added to the previous decoded value. -/
def decode_rest (L : ByteStream) : Nat → Nat → Int → List Int × Nat × Int
  | 0, ipos, prev => ([], ipos, prev)
  | n + 1, ipos, prev =>
    let s : Int × Nat :=
      if L ipos < 254 then (wrap32 (prev + (L ipos : Int) - 127), ipos + 1)
      else if L ipos = 255 then (wrap32 (prev + readI32 L (ipos + 1)), ipos + 5)
      else (wrap32 (prev + readI16 L (ipos + 1)), ipos + 3)
    let t := decode_rest L n s.2 s.1
    (s.1 :: t.1, t.2.1, t.2.2)

/-- The complete line decoder `_decode_ty6_oneline` for width `w ≥ 1`:
first pixel, `(w-1) / 16` full blocks, `(w-1) % 16` tail pixels. -/
def decode_ty6_oneline (L : ByteStream) (w : Nat) : List Int :=
  let f := decode_firstpx L
  let b := decode_blocks L ((w - 1) / 16) f.2 f.1
  let t := decode_rest L ((w - 1) % 16) b.2.1 b.2.2
  f.1 :: (b.1 ++ t.1)

/-! ### The Numba TY6 line decoder, `_decode_ty6_oneline_numba` (lines 44-188)

The Numba backend reconstructs the multi-byte reads with explicit shifts and
ors instead of numpy views, and unrolls the two sub-blocks; the sub-block
statements themselves are character-for-character the same computation as in
the Python decoder, so `packLE`/`rawlist` are shared. -/

/-- The reconstruction `b0 | b1 << 8 | b2 << 16 | b3 << 24` (lines 76-79,
141-144, 169-172). -/
def numba_u32core (L : ByteStream) (i : Nat) : Nat :=
  L i ||| (L (i + 1) <<< 8) ||| (L (i + 2) <<< 16) ||| (L (i + 3) <<< 24)

/-- The reconstruction `b0 | b1 << 8` (lines 86, 152, 180). -/
def numba_u16core (L : ByteStream) (i : Nat) : Nat := L i ||| (L (i + 1) <<< 8)

/-- Numba-style signed 32-bit read: reconstruct, then subtract `2^32` when
the value is at least `2^31` (lines 141-148). -/
def numba_readI32 (L : ByteStream) (i : Nat) : Int :=
  if 2147483648 ≤ numba_u32core L i then (numba_u32core L i : Int) - 4294967296
  else (numba_u32core L i : Int)

/-- Numba-style signed 16-bit read (lines 152-155). -/
def numba_readI16 (L : ByteStream) (i : Nat) : Int :=
  if 32768 ≤ numba_u16core L i then (numba_u16core L i : Int) - 65536
  else (numba_u16core L i : Int)

/-- Numba first-pixel decode (lines 69-92).  In the long-overflow branch the
source stores the raw reconstruction into the `int32` array first and only
then applies its sign fixup to the already-wrapped stored value. -/
def numba_firstpx (L : ByteStream) : Int × Nat :=
  if L 0 < 254 then (wrap32 ((L 0 : Int) - 127), 1)
  else if L 0 = 255 then
    (if 2147483648 ≤ wrap32 ((numba_u32core L 1 : Int)) then
        wrap32 (wrap32 ((numba_u32core L 1 : Int)) - 4294967296)
      else wrap32 ((numba_u32core L 1 : Int)), 5)
  else (wrap32 (numba_readI16 L 1), 3)

/-- Numba escape resolution over a block's raw values (lines 133-159). -/
def numba_resolve (L : ByteStream) : List Int → Nat → Int → List Int × Nat × Int
  | [], ipos, prev => ([], ipos, prev)
  | r :: rs, ipos, prev =>
    let s : Int × Nat :=
      if 127 ≤ r then
        if 128 ≤ r then (numba_readI32 L ipos, ipos + 4) else (numba_readI16 L ipos, ipos + 2)
      else (r, ipos)
    let v := wrap32 (prev + s.1)
    let t := numba_resolve L rs s.2 v
    (v :: t.1, t.2.1, t.2.2)

/-- One full block in the Numba decoder (lines 95-159). -/
def numba_block (L : ByteStream) (ipos : Nat) (prev : Int) : List Int × Nat × Int :=
  let bittype := L ipos
  let nbit1 := bittype &&& 15
  let nbit2 := (bittype >>> 4) &&& 15
  let raws := rawlist nbit1 (packLE L (ipos + 1) nbit1)
      ++ rawlist nbit2 (packLE L (ipos + 1 + nbit1) nbit2)
  numba_resolve L raws (ipos + 1 + nbit1 + nbit2) prev

/-- The Numba block loop. -/
def numba_blocks (L : ByteStream) : Nat → Nat → Int → List Int × Nat × Int
  | 0, ipos, prev => ([], ipos, prev)
  | k + 1, ipos, prev =>
    let b := numba_block L ipos prev
    let t := numba_blocks L k b.2.1 b.2.2
    (b.1 ++ t.1, t.2.1, t.2.2)

/-- The Numba tail-remainder loop (lines 162-186). -/
def numba_rest (L : ByteStream) : Nat → Nat → Int → List Int × Nat × Int
  | 0, ipos, prev => ([], ipos, prev)
  | n + 1, ipos, prev =>
    let s : Int × Nat :=
      if L ipos < 254 then (wrap32 (prev + (L ipos : Int) - 127), ipos + 1)
      else if L ipos = 255 then (wrap32 (prev + numba_readI32 L (ipos + 1)), ipos + 5)
      else (wrap32 (prev + numba_readI16 L (ipos + 1)), ipos + 3)
    let t := numba_rest L n s.2 s.1
    (s.1 :: t.1, t.2.1, t.2.2)

/-- The complete Numba line decoder `_decode_ty6_oneline_numba`. -/
def decode_ty6_oneline_numba (L : ByteStream) (w : Nat) : List Int :=
  let f := numba_firstpx L
  let b := numba_blocks L ((w - 1) / 16) f.2 f.1
  let t := numba_rest L ((w - 1) % 16) b.2.1 b.2.2
  f.1 :: (b.1 ++ t.1)

/-! ### Spec-side auxiliary definitions -/

/-- Little-endian integer formed by the `n` bytes starting at position `i`,
as the specification words the packed sub-block integer `v`. -/
def leNat (L : ByteStream) (i : Nat) : Nat → Nat
  | 0 => 0
  | n + 1 => leNat L i n + L (i + n) * 256 ^ n

/-- The 3-way escape rule at stream position `i`, as the specification
states it for the first pixel: the decoded delta/value together with the
position after the consumed bytes. -/
def escape_value (L : ByteStream) (i : Nat) : Int × Nat :=
  if L i < 254 then ((L i : Int) - 127, i + 1)
  else if L i = 255 then (readI32 L (i + 1), i + 5)
  else (readI16 L (i + 1), i + 3)

/-- The all-zero byte stream, used as a concrete input by the witnesses. -/
def zstream : ByteStream := fun _ => 0

/-! ### Bounds-checked (Option) reads over a finite line buffer

These model the numpy behaviour of `_decode_ty6_oneline` on a finite
`uint8` array: a scalar access out of bounds raises `IndexError` and a
`.view` of a too-short slice raises `ValueError`/`IndexError`; either way
the decode aborts, which the model writes as `none`. -/

/-- Bounds-checked byte read: `linedata[i]`. -/
def readByte_opt (l : List Nat) (i : Nat) : Option Nat := l[i]?

/-- Bounds-checked `linedata[i:i+2].view(np.int16)[0]`. -/
def readI16_opt (l : List Nat) (i : Nat) : Option Int :=
  if i + 2 ≤ l.length then some (readI16 (fun k => l.getD k 0) i) else none

/-- Bounds-checked `linedata[i:i+4].view(np.int32)[0]`. -/
def readI32_opt (l : List Nat) (i : Nat) : Option Int :=
  if i + 4 ≤ l.length then some (readI32 (fun k => l.getD k 0) i) else none

/-- Bounds-checked sub-block byte gather (the `v |= ...` loop reads `n`
single bytes). -/
def packLE_opt (l : List Nat) (i n : Nat) : Option Nat :=
  if i + n ≤ l.length then some (packLE (fun k => l.getD k 0) i n) else none

/-- Bounds-checked first-pixel decode. -/
def firstpx_opt (l : List Nat) : Option (Int × Nat) := do
  let px ← readByte_opt l 0
  if px < 254 then pure (wrap32 ((px : Int) - 127), 1)
  else if px = 255 then do
    let v ← readI32_opt l 1
    pure (wrap32 v, 5)
  else do
    let v ← readI16_opt l 1
    pure (wrap32 v, 3)

/-- Bounds-checked escape resolution. -/
def resolve_opt (l : List Nat) : List Int → Nat → Int → Option (List Int × Nat × Int)
  | [], ipos, prev => some ([], ipos, prev)
  | r :: rs, ipos, prev => do
    let s : Int × Nat ←
      if 127 ≤ r then
        if 128 ≤ r then do
          let d ← readI32_opt l ipos
          pure (d, ipos + 4)
        else do
          let d ← readI16_opt l ipos
          pure (d, ipos + 2)
      else pure (r, ipos)
    let v := wrap32 (prev + s.1)
    let t ← resolve_opt l rs s.2 v
    pure (v :: t.1, t.2.1, t.2.2)

/-- Bounds-checked full block. -/
def decode_block_opt (l : List Nat) (ipos : Nat) (prev : Int) :
    Option (List Int × Nat × Int) := do
  let bittype ← readByte_opt l ipos
  let nbit1 := bittype &&& 15
  let nbit2 := (bittype >>> 4) &&& 15
  let v1 ← packLE_opt l (ipos + 1) nbit1
  let v2 ← packLE_opt l (ipos + 1 + nbit1) nbit2
  resolve_opt l (rawlist nbit1 v1 ++ rawlist nbit2 v2) (ipos + 1 + nbit1 + nbit2) prev

/-- Bounds-checked block loop. -/
def decode_blocks_opt (l : List Nat) : Nat → Nat → Int → Option (List Int × Nat × Int)
  | 0, ipos, prev => some ([], ipos, prev)
  | k + 1, ipos, prev => do
    let b ← decode_block_opt l ipos prev
    let t ← decode_blocks_opt l k b.2.1 b.2.2
    pure (b.1 ++ t.1, t.2.1, t.2.2)

/-- Bounds-checked tail loop. -/
def decode_rest_opt (l : List Nat) : Nat → Nat → Int → Option (List Int × Nat × Int)
  | 0, ipos, prev => some ([], ipos, prev)
  | n + 1, ipos, prev => do
    let px ← readByte_opt l ipos
    let s : Int × Nat ←
      if px < 254 then pure (wrap32 (prev + (px : Int) - 127), ipos + 1)
      else if px = 255 then do
        let d ← readI32_opt l (ipos + 1)
        pure (wrap32 (prev + d), ipos + 5)
      else do
        let d ← readI16_opt l (ipos + 1)
        pure (wrap32 (prev + d), ipos + 3)
    let t ← decode_rest_opt l n s.2 s.1
    pure (s.1 :: t.1, t.2.1, t.2.2)

/-- Bounds-checked complete line decoder over a finite buffer. -/
def decode_ty6_oneline_opt (l : List Nat) (w : Nat) : Option (List Int) := do
  let f ← firstpx_opt l
  let b ← decode_blocks_opt l ((w - 1) / 16) f.2 f.1
  let t ← decode_rest_opt l ((w - 1) % 16) b.2.1 b.2.2
  pure (f.1 :: (b.1 ++ t.1))

/-- The `for iy in range(ny)` row loop: decode `n` rows starting at row
index `i`; any failed row aborts the whole loop. -/
def rows_from (f : Nat → Option (List Int)) : Nat → Nat → Option (List (List Int))
  | _, 0 => some []
  | i, n + 1 => do
    let row ← f i
    let rest ← rows_from f (i + 1) n
    pure (row :: rest)

/-- The per-line loop of `_get_raw_data_ty6_python` (lines 487-491): row `iy`
is decoded from the slice `linedata[offsets[iy]:]`, i.e. from the line's
start offset to the END of the packed payload (the next line's offset is
never consulted), and any exception inside a line decode aborts the whole
image. -/
def get_raw_data_ty6_python (linedata : List Nat) (offsets : List Nat) (ny nx : Nat) :
    Option (List (List Int)) :=
  rows_from (fun iy => decode_ty6_oneline_opt (linedata.drop (offsets.getD iy 0)) nx) 0 ny

/-! ### The binary header parser, `_read_binary_header` (lines 311-402) -/

/-- Python exceptions raised by the reader.  `valueError` is the failure the
specification names `FormatError`; the `notImplementedError` of
`get_raw_data` plays the role of the specification's `DecodeError` for an
unsupported compression tag. -/
inductive PyError where
  | valueError (msg : String)
  | notImplementedError (msg : String)
deriving DecidableEq

/-- The mapping returned by `_read_binary_header` (lines 373-402), with
float64 fields carried as little-endian 64-bit bit patterns. -/
structure BinHeader where
  bin_x : Int
  bin_y : Int
  chip_npx_x : Int
  chip_npx_y : Int
  im_npx_x : Int
  im_npx_y : Int
  gain : Nat
  overflow_flag : Int
  overflow_after_remeasure_flag : Int
  overflow_threshold : Int
  exposure_time_sec : Nat
  overflow_time_sec : Nat
  detector_type : Int
  real_px_size_x : Nat
  real_px_size_y : Nat
  start_angles_steps : List Int
  end_angles_steps : List Int
  step_to_rad : List Nat
  beam_rotn_around_e2 : Nat
  beam_rotn_around_e3 : Nat
  alpha1_wavelength : Nat
  alpha2_wavelength : Nat
  alpha12_wavelength : Nat
  detector_rotns : List Nat
  origin_px_x : Nat
  origin_px_y : Nat
  angles_in_deg : List Nat
  distance_mm : Nat
deriving DecidableEq

/-- The binary header parser `_read_binary_header` over the whole file `F`.
Absolute offsets: the binary header starts at 256; the special section at
`256 + 512 = 768`; the goniometer section at `256 + 512 + 768 = 1536`.
The value stored under the key `chip_npx_y` is, as in the source (line 377),
the `im_npx_y` value read at offset 284 — the source reads offset 280 into
its `chip_npx_y` variable (line 323) and then never uses that variable. -/
def read_binary_header (F : ByteStream) : Except PyError BinHeader :=
  if (readU32 F 292 : Int) = readI16 F 282 * readI16 F 284 then
    .ok
      { bin_x := readI16 F 256
        bin_y := readI16 F 258
        chip_npx_x := readI16 F 278
        chip_npx_y := readI16 F 284
        im_npx_x := readI16 F 282
        im_npx_y := readI16 F 284
        gain := readU64 F 824
        overflow_flag := readI16 F 1232
        overflow_after_remeasure_flag := readI16 F 1234
        overflow_threshold := readI32 F 1240
        exposure_time_sec := readU64 F 1248
        overflow_time_sec := readU64 F 1256
        detector_type := readI32 F 1316
        real_px_size_x := readU64 F 1336
        real_px_size_y := readU64 F 1344
        start_angles_steps := (List.range 10).map fun k => readI32 F (1820 + 4 * k)
        end_angles_steps := (List.range 10).map fun k => readI32 F (1860 + 4 * k)
        step_to_rad := (List.range 10).map fun k => readU64 F (1904 + 8 * k)
        beam_rotn_around_e2 := readU64 F 2088
        beam_rotn_around_e3 := readU64 F 2096
        alpha1_wavelength := readU64 F 2104
        alpha2_wavelength := readU64 F 2112
        alpha12_wavelength := readU64 F 2120
        detector_rotns := (List.range 3).map fun k => readU64 F (2176 + 8 * k)
        origin_px_x := readU64 F 2200
        origin_px_y := readU64 F 2208
        angles_in_deg := (List.range 4).map fun k => readU64 F (2216 + 8 * k)
        distance_mm := readU64 F 2248 }
  else .error (.valueError "Cannot interpret binary header")

/-- The value at the `chip_npx_y` field's own documented offset: the second
int16 of the `"<hhhh"` unpack at offset `256 + 22`, i.e. absolute offset 280
(source line 323). -/
def chip_npx_y_at_offset (F : ByteStream) : Int := readI16 F 280

/-- A concrete binary header whose consistency check passes
(`num_points = 6 = 2 * 3 = im_npx_x * im_npx_y`) and whose bytes at
offset 280 (`chip_npx_y`, value 5) differ from those at offset 284
(`im_npx_y`, value 3). -/
def c5file : ByteStream := fun i =>
  if i = 280 then 5 else if i = 282 then 2 else if i = 284 then 3
  else if i = 292 then 6 else 0

/-! ### The format sniffer, `understand` (lines 246-275)

The input is `some hdr` for a successful 256-byte read that decoded as
ASCII (`hdr` its characters), and `none` when the `open`/`read` raised
`OSError` or the decode raised `UnicodeDecodeError` — the two exceptions the
source catches and converts to `False`. -/

/-- Python `str.splitlines` restricted to the line boundaries expressible in
7-bit ASCII (`\n`, `\r\n`, `\r`, `\x0b`, `\x0c`, `\x1c`, `\x1d`, `\x1e`):
no trailing empty line, and an empty string has no lines. -/
def splitlinesGo : List Char → List Char → List (List Char)
  | [], [] => []
  | [], acc => [acc.reverse]
  | '\r' :: '\n' :: cs, acc => acc.reverse :: splitlinesGo cs []
  | c :: cs, acc =>
    if c = '\n' ∨ c = '\r' ∨ c = '\x0b' ∨ c = '\x0c'
        ∨ c = '\x1c' ∨ c = '\x1d' ∨ c = '\x1e' then
      acc.reverse :: splitlinesGo cs []
    else splitlinesGo cs (c :: acc)

/-- Python `str.split()` (no separator): split on runs of blanks, returning
no empty tokens. -/
def pysplitGo : List Char → List Char → List (List Char)
  | [], [] => []
  | [], acc => [acc.reverse]
  | c :: cs, acc =>
    if c = ' ' ∨ c = '\t' then
      if acc.isEmpty then pysplitGo cs [] else acc.reverse :: pysplitGo cs []
    else pysplitGo cs (c :: acc)

/-- The format sniffer `understand`: sequential rejection tests exactly as
in the source, returning a boolean. -/
def understand (contents : Option (List Char)) : Bool :=
  match contents with
  | none => false
  | some hdr =>
    let lines := splitlinesGo hdr []
    if lines.length < 2 then false
    else
      let vers := pysplitGo (lines.getD 0 []) []
      if vers.length < 2 ∨ vers.getD 0 [] ≠ ['O', 'D']
          ∨ vers.getD 1 [] ≠ ['S', 'A', 'P', 'P', 'H', 'I', 'R', 'E'] then false
      else if (lines.getD 1 []).takeWhile (fun c => c ≠ '=')
          ≠ ['C', 'O', 'M', 'P', 'R', 'E', 'S', 'S', 'I', 'O', 'N'] then false
      else true

/-- The sniffer contract as the specification words it: true exactly when
the read succeeded, there are at least two header lines, line 1 has at
least two blank-separated tokens equal to `"OD"` and `"SAPPHIRE"`, and line
2's key before the first `=` is `"COMPRESSION"`; every failure is `false`. -/
def understandSpec (contents : Option (List Char)) : Bool :=
  match contents with
  | none => false
  | some hdr =>
    let lines := splitlinesGo hdr []
    let vers := pysplitGo (lines.getD 0 []) []
    decide (2 ≤ lines.length) && decide (2 ≤ vers.length)
      && decide (vers.getD 0 [] = ['O', 'D'])
      && decide (vers.getD 1 [] = ['S', 'A', 'P', 'P', 'H', 'I', 'R', 'E'])
      && decide ((lines.getD 1 []).takeWhile (fun c => c ≠ '=')
          = ['C', 'O', 'M', 'P', 'R', 'E', 'S', 'S', 'I', 'O', 'N'])

/-! ### The compression dispatch of `get_raw_data` (lines 434-451) -/

/-- Python `str.strip()` on the whitespace characters. -/
def pystrip (l : List Char) : List Char :=
  ((l.dropWhile fun c =>
      c = ' ' ∨ c = '\t' ∨ c = '\n' ∨ c = '\r' ∨ c = '\x0b' ∨ c = '\x0c').reverse.dropWhile
    fun c =>
      c = ' ' ∨ c = '\t' ∨ c = '\n' ∨ c = '\r' ∨ c = '\x0b' ∨ c = '\x0c').reverse

/-- The only compression scheme the reader can decode. -/
inductive CompressionScheme where
  | ty6
deriving DecidableEq

/-- The dispatch of `get_raw_data`: the stripped compression tag must start
with `"TY6"`; any other tag raises `NotImplementedError` (the failure the
specification's taxonomy calls `DecodeError`), and no other scheme is ever
attempted. -/
def get_raw_data (compression : List Char) : Except PyError CompressionScheme :=
  if (pystrip compression).take 3 = ['T', 'Y', '6'] then .ok .ty6
  else .error (.notImplementedError "unsupported compression")

/-! ### Basic arithmetic lemmas about the primitives -/

theorem wrap32_eq_self {z : Int} (h1 : -2147483648 ≤ z) (h2 : z < 2147483648) :
    wrap32 z = z := by
  unfold wrap32; omega

theorem wrap32_add_wrap32 (a b : Int) : wrap32 (a + wrap32 b) = wrap32 (a + b) := by
  unfold wrap32; omega

theorem readI16_lb (L : ByteStream) (i : Nat) : -32768 ≤ readI16 L i := by
  unfold readI16 readU16
  have : (L i + 256 * L (i + 1)) % 65536 < 65536 := Nat.mod_lt _ (by norm_num)
  split <;> omega

theorem readI16_ub (L : ByteStream) (i : Nat) : readI16 L i < 32768 := by
  unfold readI16 readU16
  have : (L i + 256 * L (i + 1)) % 65536 < 65536 := Nat.mod_lt _ (by norm_num)
  split <;> omega

theorem readI32_lb (L : ByteStream) (i : Nat) : -2147483648 ≤ readI32 L i := by
  unfold readI32 readU32
  have : (L i + 256 * L (i + 1) + 65536 * L (i + 2) + 16777216 * L (i + 3)) % 4294967296
      < 4294967296 := Nat.mod_lt _ (by norm_num)
  split <;> omega

theorem readI32_ub (L : ByteStream) (i : Nat) : readI32 L i < 2147483648 := by
  unfold readI32 readU32
  have : (L i + 256 * L (i + 1) + 65536 * L (i + 2) + 16777216 * L (i + 3)) % 4294967296
      < 4294967296 := Nat.mod_lt _ (by norm_num)
  split <;> omega

theorem readU16_eq (L : ByteStream) (i : Nat) (h0 : L i < 256) (h1 : L (i + 1) < 256) :
    readU16 L i = L i + 256 * L (i + 1) := by
  unfold readU16; omega

theorem readU32_eq (L : ByteStream) (i : Nat) (h0 : L i < 256) (h1 : L (i + 1) < 256)
    (h2 : L (i + 2) < 256) (h3 : L (i + 3) < 256) :
    readU32 L i = L i + 256 * L (i + 1) + 65536 * L (i + 2) + 16777216 * L (i + 3) := by
  unfold readU32; omega

theorem readI16_eq_sint16 (L : ByteStream) (i : Nat) (hB : ∀ j, L j < 256) :
    readI16 L i = sint16 (L i + 256 * L (i + 1)) := by
  unfold readI16 sint16
  rw [readU16_eq L i (hB i) (hB (i + 1))]

theorem readI32_eq_sint32 (L : ByteStream) (i : Nat) (hB : ∀ j, L j < 256) :
    readI32 L i = sint32 (L i + 256 * L (i + 1) + 65536 * L (i + 2) + 16777216 * L (i + 3)) := by
  unfold readI32 sint32
  rw [readU32_eq L i (hB i) (hB (i + 1)) (hB (i + 2)) (hB (i + 3))]

/-! ### Little-endian reconstruction lemmas -/

theorem lor_shift_eq_add {a : Nat} (b k : Nat) (h : a < 2 ^ k) :
    a ||| (b <<< k) = a + b * 2 ^ k := by
  rw [Nat.shiftLeft_eq, Nat.lor_comm, mul_comm, ← Nat.mul_add_lt_is_or h, mul_comm]
  omega

theorem numba_u16core_eq (L : ByteStream) (i : Nat) (hB : ∀ j, L j < 256) :
    numba_u16core L i = L i + 256 * L (i + 1) := by
  unfold numba_u16core
  rw [lor_shift_eq_add _ 8 (by exact_mod_cast hB i)]
  ring

theorem numba_u32core_eq (L : ByteStream) (i : Nat) (hB : ∀ j, L j < 256) :
    numba_u32core L i = L i + 256 * L (i + 1) + 65536 * L (i + 2) + 16777216 * L (i + 3) := by
  unfold numba_u32core
  have h1 : L i ||| (L (i + 1) <<< 8) = L i + 256 * L (i + 1) := by
    rw [lor_shift_eq_add _ 8 (by exact_mod_cast hB i)]; ring
  have hb1 : L i + 256 * L (i + 1) < 2 ^ 16 := by
    have := hB i; have := hB (i + 1); norm_num; omega
  have h2 : (L i ||| (L (i + 1) <<< 8)) ||| (L (i + 2) <<< 16)
      = L i + 256 * L (i + 1) + 65536 * L (i + 2) := by
    rw [h1, lor_shift_eq_add _ 16 hb1]; ring
  have hb2 : L i + 256 * L (i + 1) + 65536 * L (i + 2) < 2 ^ 24 := by
    have := hB i; have := hB (i + 1); have := hB (i + 2); norm_num; omega
  rw [h2, lor_shift_eq_add _ 24 hb2]; ring

theorem numba_readI16_eq (L : ByteStream) (hB : ∀ j, L j < 256) (i : Nat) :
    numba_readI16 L i = readI16 L i := by
  unfold numba_readI16 readI16
  rw [numba_u16core_eq L i hB, readU16_eq L i (hB i) (hB (i + 1))]
  have := hB i; have := hB (i + 1)
  split <;> split <;> omega

theorem numba_readI32_eq (L : ByteStream) (hB : ∀ j, L j < 256) (i : Nat) :
    numba_readI32 L i = readI32 L i := by
  unfold numba_readI32 readI32
  rw [numba_u32core_eq L i hB, readU32_eq L i (hB i) (hB (i + 1)) (hB (i + 2)) (hB (i + 3))]
  have := hB i; have := hB (i + 1); have := hB (i + 2); have := hB (i + 3)
  split <;> split <;> omega

theorem numba_firstpx_eq (L : ByteStream) (hB : ∀ j, L j < 256) :
    numba_firstpx L = decode_firstpx L := by
  unfold numba_firstpx decode_firstpx
  by_cases h0 : L 0 < 254
  · rw [if_pos h0, if_pos h0]
  · by_cases h255 : L 0 = 255
    · rw [if_neg h0, if_neg h0, if_pos h255, if_pos h255]
      have hu32 : readU32 L 1 = numba_u32core L 1 := by
        rw [numba_u32core_eq L 1 hB, readU32_eq L 1 (hB 1) (hB 2) (hB 3) (hB 4)]
      have hlt : numba_u32core L 1 < 4294967296 := by
        rw [numba_u32core_eq L 1 hB]
        have := hB 1; have := hB (1 + 1); have := hB (1 + 2); have := hB (1 + 3)
        omega
      have hwrap : wrap32 ((numba_u32core L 1 : Int)) = readI32 L 1 := by
        unfold wrap32 readI32
        rw [hu32]
        split <;> omega
      rw [hwrap]
      have h1 := readI32_ub L 1
      have h2 := readI32_lb L 1
      rw [if_neg (by omega), wrap32_eq_self h2 h1]
    · rw [if_neg h0, if_neg h0, if_neg h255, if_neg h255, numba_readI16_eq L hB]

theorem numba_resolve_eq (L : ByteStream) (hB : ∀ j, L j < 256) :
    ∀ (rs : List Int) (ipos : Nat) (prev : Int),
      numba_resolve L rs ipos prev = resolve L rs ipos prev := by
  intro rs
  induction rs with
  | nil => intro ipos prev; rfl
  | cons r rs ih =>
    intro ipos prev
    unfold numba_resolve resolve
    simp only [numba_readI16_eq L hB, numba_readI32_eq L hB, ih]

theorem numba_block_eq (L : ByteStream) (hB : ∀ j, L j < 256) (ipos : Nat) (prev : Int) :
    numba_block L ipos prev = decode_block L ipos prev := by
  unfold numba_block decode_block
  simp only [numba_resolve_eq L hB]

theorem numba_blocks_eq (L : ByteStream) (hB : ∀ j, L j < 256) :
    ∀ (k ipos : Nat) (prev : Int), numba_blocks L k ipos prev = decode_blocks L k ipos prev := by
  intro k
  induction k with
  | zero => intro ipos prev; rfl
  | succ k ih =>
    intro ipos prev
    unfold numba_blocks decode_blocks
    simp only [numba_block_eq L hB, ih]

theorem numba_rest_eq (L : ByteStream) (hB : ∀ j, L j < 256) :
    ∀ (n ipos : Nat) (prev : Int), numba_rest L n ipos prev = decode_rest L n ipos prev := by
  intro n
  induction n with
  | zero => intro ipos prev; rfl
  | succ n ih =>
    intro ipos prev
    unfold numba_rest decode_rest
    simp only [numba_readI16_eq L hB, numba_readI32_eq L hB, ih]

theorem numba_oneline_eq (L : ByteStream) (hB : ∀ j, L j < 256) (w : Nat) :
    decode_ty6_oneline_numba L w = decode_ty6_oneline L w := by
  unfold decode_ty6_oneline_numba decode_ty6_oneline
  simp only [numba_firstpx_eq L hB, numba_blocks_eq L hB, numba_rest_eq L hB]

/-! ### Packed-value and structure lemmas -/

theorem leNat_lt (L : ByteStream) (i : Nat) (hB : ∀ j, L j < 256) :
    ∀ n, leNat L i n < 256 ^ n := by
  intro n
  induction n with
  | zero => simp [leNat]
  | succ n ih =>
    have hb : L (i + n) * 256 ^ n ≤ 255 * 256 ^ n :=
      Nat.mul_le_mul_right _ (by have := hB (i + n); omega)
    simp only [leNat, pow_succ]
    omega

theorem pow256_eq (n : Nat) : (256 : Nat) ^ n = 2 ^ (8 * n) := by
  rw [pow_mul]; norm_num

theorem packLE_eq_leNat (L : ByteStream) (i : Nat) (hB : ∀ j, L j < 256) :
    ∀ n, packLE L i n = leNat L i n := by
  intro n
  induction n with
  | zero => rfl
  | succ n ih =>
    have hlt : leNat L i n < 2 ^ (8 * n) := by
      have := leNat_lt L i hB n
      have := pow256_eq n
      omega
    simp only [packLE, ih]
    rw [lor_shift_eq_add _ _ hlt]
    simp only [leNat]
    rw [← pow256_eq n]

theorem and_fifteen (x : Nat) : x &&& 15 = x % 16 := by
  have := Nat.and_pow_two_sub_one_eq_mod x 4
  norm_num at this
  exact this

theorem shift4_and_fifteen (x : Nat) (h : x < 256) : (x >>> 4) &&& 15 = x / 16 := by
  rw [and_fifteen, Nat.shiftRight_eq_div_pow]
  norm_num
  omega

theorem rawlist_length (nbit v : Nat) : (rawlist nbit v).length = 8 := by
  simp [rawlist]

theorem resolve_length (L : ByteStream) :
    ∀ (rs : List Int) (ipos : Nat) (prev : Int),
      (resolve L rs ipos prev).1.length = rs.length := by
  intro rs
  induction rs with
  | nil => intro ipos prev; rfl
  | cons r rs ih =>
    intro ipos prev
    simp only [resolve, List.length_cons, ih]

theorem decode_block_length (L : ByteStream) (ipos : Nat) (prev : Int) :
    (decode_block L ipos prev).1.length = 16 := by
  unfold decode_block
  rw [resolve_length]
  simp [rawlist_length]

theorem decode_blocks_length (L : ByteStream) :
    ∀ (k ipos : Nat) (prev : Int), (decode_blocks L k ipos prev).1.length = 16 * k := by
  intro k
  induction k with
  | zero => intro ipos prev; rfl
  | succ k ih =>
    intro ipos prev
    simp only [decode_blocks, List.length_append, decode_block_length, ih]
    ring

theorem decode_rest_length (L : ByteStream) :
    ∀ (n ipos : Nat) (prev : Int), (decode_rest L n ipos prev).1.length = n := by
  intro n
  induction n with
  | zero => intro ipos prev; rfl
  | succ n ih =>
    intro ipos prev
    simp only [decode_rest, List.length_cons, ih]

theorem decode_ty6_oneline_length (L : ByteStream) (w : Nat) (hw : 1 ≤ w) :
    (decode_ty6_oneline L w).length = w := by
  unfold decode_ty6_oneline
  simp only [List.length_cons, List.length_append, decode_blocks_length, decode_rest_length]
  have := Nat.div_add_mod (w - 1) 16
  omega

theorem zstream_lt : ∀ i, zstream i < 256 := by
  intro i
  simp [zstream]

/-! ### Claim C1 -/

/-- C1: inside a full 16-pixel block, after the bit-type byte (low nibble =
sub-block 1's width, high nibble = sub-block 2's width), a sub-block of
width `nbit = 0` contributes 8 raw deltas equal to 0 and consumes no payload
bytes (the stream positions in the equation advance only by `nbit1` and
`nbit2`); for `nbit ≥ 1` the decoder consumes exactly `nbit` bytes forming
the little-endian integer `v < 2^(8*nbit)`, and raw delta `j` equals
`((v >>> (nbit*j)) &&& (2^nbit - 1)) - zero_at` with
`zero_at = 2^(nbit-1) - 1` for `nbit > 1` and `0` otherwise. -/
theorem c1_subblock_unpacking (L : ByteStream) (hB : ∀ j, L j < 256) (ipos : Nat) (prev : Int) :
    (decode_block L ipos prev
      = resolve L
          (rawlist (L ipos % 16) (leNat L (ipos + 1) (L ipos % 16))
            ++ rawlist (L ipos / 16) (leNat L (ipos + 1 + L ipos % 16) (L ipos / 16)))
          (ipos + 1 + L ipos % 16 + L ipos / 16) prev)
    ∧ (∀ i n, leNat L i n < 2 ^ (8 * n))
    ∧ (∀ v, rawlist 0 v = List.replicate 8 0)
    ∧ (∀ nbit v, nbit ≤ 15 → rawlist nbit v
        = (List.range 8).map fun j =>
            (((v >>> (nbit * j)) &&& (2 ^ nbit - 1) : Nat) : Int)
              - (if 1 < nbit then (2 ^ (nbit - 1) - 1 : Int) else 0)) := by
  refine ⟨?_, ?_, ?_, ?_⟩
  · simp only [decode_block]
    rw [and_fifteen, shift4_and_fifteen _ (hB ipos), packLE_eq_leNat L (ipos + 1) hB,
      packLE_eq_leNat L (ipos + 1 + L ipos % 16) hB]
  · intro i n
    have := leNat_lt L i hB n
    have := pow256_eq n
    omega
  · intro v
    simp [rawlist, zero_at, wrap32, List.replicate]
  · intro nbit v hn
    unfold rawlist
    apply List.map_congr_left
    intro j hj
    have hmask : (1 <<< nbit) - 1 = 2 ^ nbit - 1 := by
      rw [Nat.shiftLeft_eq, one_mul]
    have hA : (v >>> (nbit * j)) &&& (2 ^ nbit - 1) < 2 ^ nbit := by
      rw [Nat.and_pow_two_sub_one_eq_mod]
      exact Nat.mod_lt _ (Nat.pos_pow_of_pos _ (by norm_num))
    have hpow : (2 : Nat) ^ nbit ≤ 32768 := by
      calc (2 : Nat) ^ nbit ≤ 2 ^ 15 := Nat.pow_le_pow_right (by norm_num) hn
        _ = 32768 := by norm_num
    have hza : ((zero_at nbit : Nat) : Int) = if 1 < nbit then (2 ^ (nbit - 1) - 1 : Int) else 0 := by
      unfold zero_at
      split
      · rw [Nat.shiftLeft_eq, one_mul]
        have h1 : (1 : Nat) ≤ 2 ^ (nbit - 1) := Nat.one_le_two_pow
        push_cast [h1]
        ring
      · simp
    have hzb : (zero_at nbit : Nat) ≤ 16384 := by
      unfold zero_at
      split
      · rw [Nat.shiftLeft_eq, one_mul]
        have : (2 : Nat) ^ (nbit - 1) ≤ 2 ^ 14 := Nat.pow_le_pow_right (by norm_num) (by omega)
        omega
      · omega
    rw [hmask, hza]
    rw [wrap32_eq_self]
    · have h1 : (0 : Int) ≤ (((v >>> (nbit * j)) &&& (2 ^ nbit - 1) : Nat) : Int) := by positivity
      have h2 : (((v >>> (nbit * j)) &&& (2 ^ nbit - 1) : Nat) : Int) < 32768 := by
        exact_mod_cast lt_of_lt_of_le hA (by exact_mod_cast hpow)
      have h3 : (0 : Int) ≤ (if 1 < nbit then (2 ^ (nbit - 1) - 1 : Int) else 0) := by
        split
        · have := pow_pos (show (0 : Int) < 2 by norm_num) (nbit - 1)
          omega
        · omega
      have h4 : (if 1 < nbit then (2 ^ (nbit - 1) - 1 : Int) else 0) ≤ 16384 := by
        rw [← hza]
        omega
      omega
    · have h1 : (0 : Int) ≤ (((v >>> (nbit * j)) &&& (2 ^ nbit - 1) : Nat) : Int) := by positivity
      have h2 : (((v >>> (nbit * j)) &&& (2 ^ nbit - 1) : Nat) : Int) < 32768 := by
        exact_mod_cast lt_of_lt_of_le hA (by exact_mod_cast hpow)
      have h3 : (0 : Int) ≤ (if 1 < nbit then (2 ^ (nbit - 1) - 1 : Int) else 0) := by
        split
        · have := pow_pos (show (0 : Int) < 2 by norm_num) (nbit - 1)
          omega
        · omega
      omega

theorem c1_subblock_unpacking_witness :
    decode_block zstream 0 0 = (List.replicate 16 0, 1, 0) := by
  rw [(c1_subblock_unpacking zstream zstream_lt 0 0).1]
  decide

/-! ### Claim C2 -/

/-- C2: escape resolution inside a block, in emission order: a raw unpacked
delta of exactly 126 is used directly; exactly 127 replaces the delta with
the sign-extended little-endian signed 16-bit integer from the next 2 bytes;
128 or more replaces it with the little-endian signed 32-bit integer from
the next 4 bytes; and every resolved value is `decoded[i-1] + delta` (stored
through the int32 wrap of the output array). -/
theorem c2_escape_resolution (L : ByteStream) (hB : ∀ j, L j < 256)
    (rs : List Int) (ipos : Nat) (prev : Int) :
    (resolve L ((126 : Int) :: rs) ipos prev =
      let v := wrap32 (prev + 126)
      let t := resolve L rs ipos v
      (v :: t.1, t.2.1, t.2.2))
    ∧ (resolve L ((127 : Int) :: rs) ipos prev =
      let v := wrap32 (prev + sint16 (L ipos + 256 * L (ipos + 1)))
      let t := resolve L rs (ipos + 2) v
      (v :: t.1, t.2.1, t.2.2))
    ∧ (∀ r : Int, 128 ≤ r → resolve L (r :: rs) ipos prev =
      let v := wrap32 (prev
        + sint32 (L ipos + 256 * L (ipos + 1) + 65536 * L (ipos + 2) + 16777216 * L (ipos + 3)))
      let t := resolve L rs (ipos + 4) v
      (v :: t.1, t.2.1, t.2.2)) := by
  refine ⟨?_, ?_, ?_⟩
  · simp only [resolve]
    norm_num
  · simp only [resolve]
    rw [if_pos (by norm_num), if_neg (by norm_num), readI16_eq_sint16 L ipos hB]
  · intro r hr
    simp only [resolve]
    rw [if_pos (le_trans (by norm_num) hr), if_pos hr, readI32_eq_sint32 L ipos hB]

theorem c2_escape_resolution_witness :
    resolve zstream [(126 : Int)] 0 0 = ([126], 0, 126) := by
  rw [(c2_escape_resolution zstream zstream_lt [] 0 0).1]
  decide

/-! ### Claim C3 -/

/-- C3: the first decoded value of every line is determined by the leading
byte `px` and is stored as an absolute value: `px < 254` gives `px - 127`;
`px = 255` gives the little-endian signed 32-bit integer of the next 4
bytes; `px = 254` gives the sign-extended little-endian signed 16-bit
integer of the next 2 bytes. -/
theorem c3_first_pixel_rule (L : ByteStream) (hB : ∀ j, L j < 256) (w : Nat) (hw : 1 ≤ w) :
    ((decode_ty6_oneline L w).head? = some (decode_firstpx L).1)
    ∧ (L 0 < 254 → (decode_firstpx L).1 = (L 0 : Int) - 127)
    ∧ (L 0 = 255 → (decode_firstpx L).1
        = sint32 (L 1 + 256 * L 2 + 65536 * L 3 + 16777216 * L 4))
    ∧ (L 0 = 254 → (decode_firstpx L).1 = sint16 (L 1 + 256 * L 2)) := by
  refine ⟨?_, ?_, ?_, ?_⟩
  · simp [decode_ty6_oneline]
  · intro h
    simp only [decode_firstpx, if_pos h]
    exact wrap32_eq_self (by omega) (by omega)
  · intro h
    have h0 : ¬ L 0 < 254 := by omega
    simp only [decode_firstpx, if_neg h0, if_pos h]
    rw [wrap32_eq_self (readI32_lb L 1) (readI32_ub L 1), readI32_eq_sint32 L 1 hB]
  · intro h
    have h0 : ¬ L 0 < 254 := by omega
    have h255 : ¬ L 0 = 255 := by omega
    simp only [decode_firstpx, if_neg h0, if_neg h255]
    rw [wrap32_eq_self (by have := readI16_lb L 1; omega) (by have := readI16_ub L 1; omega),
      readI16_eq_sint16 L 1 hB]

theorem c3_first_pixel_rule_witness :
    (decode_ty6_oneline zstream 5).head? = some (-127) := by
  have h := c3_first_pixel_rule zstream zstream_lt 5 (by norm_num)
  rw [h.1, h.2.1 (by decide)]
  decide

/-! ### Claim C4 -/

/-- C4: a line of width `w ≥ 1` decodes as the first pixel, then exactly
`(w-1) / 16` full blocks of 16 values, then `(w-1) % 16` tail values; the
first pixel is the (wrapped) 3-way escape value taken absolutely, each tail
value is the same 3-way escape rule applied as a delta to the previous
decoded value, and for `w = 1` only the first-pixel rule applies. -/
theorem c4_line_structure (L : ByteStream) (w : Nat) (hw : 1 ≤ w) :
    ((decode_ty6_oneline L w).length = w)
    ∧ (decode_ty6_oneline L w
        = (decode_firstpx L).1 ::
          ((decode_blocks L ((w - 1) / 16) (decode_firstpx L).2 (decode_firstpx L).1).1
            ++ (decode_rest L ((w - 1) % 16)
                (decode_blocks L ((w - 1) / 16) (decode_firstpx L).2 (decode_firstpx L).1).2.1
                (decode_blocks L ((w - 1) / 16) (decode_firstpx L).2
                  (decode_firstpx L).1).2.2).1))
    ∧ ((decode_blocks L ((w - 1) / 16) (decode_firstpx L).2 (decode_firstpx L).1).1.length
        = 16 * ((w - 1) / 16))
    ∧ (∀ n ipos prev, (decode_rest L n ipos prev).1.length = n)
    ∧ (decode_firstpx L = (wrap32 (escape_value L 0).1, (escape_value L 0).2))
    ∧ (∀ n ipos prev, (decode_rest L (n + 1) ipos prev).1.head?
        = some (wrap32 (prev + (escape_value L ipos).1)))
    ∧ (w = 1 → decode_ty6_oneline L w = [(decode_firstpx L).1]) := by
  refine ⟨decode_ty6_oneline_length L w hw, rfl, decode_blocks_length L _ _ _,
    decode_rest_length L, ?_, ?_, ?_⟩
  · unfold decode_firstpx escape_value
    by_cases h1 : L 0 < 254
    · rw [if_pos h1, if_pos h1]
    · by_cases h2 : L 0 = 255
      · rw [if_neg h1, if_neg h1, if_pos h2, if_pos h2]
      · rw [if_neg h1, if_neg h1, if_neg h2, if_neg h2]
  · intro n ipos prev
    simp only [decode_rest, escape_value]
    by_cases h1 : L ipos < 254
    · rw [if_pos h1, if_pos h1]
      simp only [List.head?_cons, Option.some_inj]
      congr 1
      ring
    · by_cases h2 : L ipos = 255
      · rw [if_neg h1, if_neg h1, if_pos h2, if_pos h2]
        simp
      · rw [if_neg h1, if_neg h1, if_neg h2, if_neg h2]
        simp
  · intro h
    subst h
    rfl

theorem c4_line_structure_witness :
    (decode_ty6_oneline zstream 20).length = 20 :=
  (c4_line_structure zstream 20 (by norm_num)).1

/-! ### Claim C7 -/

/-- C7: on every line byte buffer and width `w ≥ 1`, the Numba line decoder
and the pure-Python line decoder return the same sequence of `w` signed
32-bit values: the accelerated path is not a semantically distinct second
algorithm. -/
theorem c7_backend_equivalence (L : ByteStream) (hB : ∀ j, L j < 256) (w : Nat) (hw : 1 ≤ w) :
    decode_ty6_oneline_numba L w = decode_ty6_oneline L w
    ∧ (decode_ty6_oneline_numba L w).length = w := by
  constructor
  · exact numba_oneline_eq L hB w
  · rw [numba_oneline_eq L hB w]
    exact decode_ty6_oneline_length L w hw

theorem c7_backend_equivalence_witness :
    decode_ty6_oneline_numba zstream 33 = decode_ty6_oneline zstream 33 :=
  (c7_backend_equivalence zstream zstream_lt 33 (by norm_num)).1

/-! ### Claim C6 -/

theorem rows_from_isSome (f : Nat → Option (List Int)) :
    ∀ (n i : Nat), (rows_from f i n).isSome = true ↔ ∀ k, k < n → (f (i + k)).isSome = true := by
  intro n
  induction n with
  | zero =>
    intro i
    simp [rows_from]
  | succ n ih =>
    intro i
    simp only [rows_from]
    cases hfi : f i with
    | none =>
      simp only [hfi, Option.bind_eq_bind, Option.none_bind, Option.isSome_none,
        Bool.false_eq_true, false_iff, not_forall]
      refine ⟨0, Nat.succ_pos n, ?_⟩
      rw [Nat.add_zero, hfi]
      simp
    | some row =>
      cases hrest : rows_from f (i + 1) n with
      | none =>
        simp only [hfi, hrest, Option.bind_eq_bind, Option.some_bind, Option.none_bind,
          Option.isSome_none, Bool.false_eq_true, false_iff, not_forall]
        have hno : ¬ ∀ k, k < n → (f (i + 1 + k)).isSome = true := by
          intro hall
          have := (ih (i + 1)).mpr hall
          rw [hrest] at this
          simp at this
        by_contra hcon
        push_neg at hcon
        apply hno
        intro k hk
        have := hcon (k + 1) (by omega)
        have e : i + (k + 1) = i + 1 + k := by omega
        rw [e] at this
        exact this
      | some rest =>
        simp only [hfi, hrest, Option.bind_eq_bind, Option.some_bind, Option.pure_def,
          Option.isSome_some, true_iff]
        have ihn := (ih (i + 1)).mp (by rw [hrest]; simp)
        intro k hk
        cases k with
        | zero =>
          rw [Nat.add_zero, hfi]
          simp
        | succ k =>
          have := ihn k (by omega)
          have e : i + 1 + k = i + (k + 1) := by omega
          rw [e] at this
          exact this

theorem rows_from_eq_some (f : Nat → Option (List Int)) :
    ∀ (n i : Nat) (g : List (List Int)), rows_from f i n = some g
      → g = (List.range n).map fun k => (f (i + k)).getD [] := by
  intro n
  induction n with
  | zero =>
    intro i g h
    simp only [rows_from, Option.some_inj] at h
    simp [← h]
  | succ n ih =>
    intro i g h
    simp only [rows_from] at h
    cases hfi : f i with
    | none =>
      rw [hfi] at h
      simp at h
    | some row =>
      rw [hfi] at h
      cases hrest : rows_from f (i + 1) n with
      | none =>
        rw [hrest] at h
        simp at h
      | some rest =>
        rw [hrest] at h
        simp only [Option.bind_eq_bind, Option.some_bind, Option.pure_def,
          Option.some_inj] at h
        subst h
        have tail : rest = (List.range n).map fun k => (f (i + (k + 1))).getD [] := by
          rw [ih (i + 1) rest hrest]
          apply List.map_congr_left
          intro k _
          have e : i + 1 + k = i + (k + 1) := by omega
          rw [e]
        rw [List.range_succ_eq_map, List.map_cons, List.map_map]
        simp only [Nat.add_zero, hfi, Option.getD_some, List.cons.injEq, true_and]
        rw [tail]
        apply List.map_congr_left
        intro k _
        simp [Function.comp, Nat.succ_eq_add_one]

/-- C6 counterexample: the offsets table `[1, 0]` is non-monotonic (the
claim requires a `DecodeError` and no grid), yet the pure-Python image
assembler decodes the payload `[127, 127]` as the 2×1 grid `[[0], [0]]`
without any failure. -/
theorem c6_failfast_counterexample :
    ([1, 0].getD 1 0 < [1, 0].getD 0 0)
    ∧ get_raw_data_ty6_python [127, 127] [1, 0] 2 1 = some [[0], [0]] := by
  constructor
  · decide
  · decide

/-- C6 amended: the Python-path image assembler performs no monotonicity or
byte-count consistency check at all; row `iy` is decoded from
`linedata[offsets[iy]:]` (to the END of the payload, ignoring the next
offset), the whole decode succeeds exactly when every such line decode
succeeds in-bounds, no partial grid is ever returned (an out-of-bounds read
inside any line aborts with an exception, modelled `none`), and on success
the grid is exactly the list of per-line decodes. -/
theorem c6_assembler_totality (linedata offsets : List Nat) (ny nx : Nat) :
    ((get_raw_data_ty6_python linedata offsets ny nx).isSome = true
      ↔ ∀ iy < ny,
          (decode_ty6_oneline_opt (linedata.drop (offsets.getD iy 0)) nx).isSome = true)
    ∧ (∀ g, get_raw_data_ty6_python linedata offsets ny nx = some g
        → g = (List.range ny).map fun iy =>
            (decode_ty6_oneline_opt (linedata.drop (offsets.getD iy 0)) nx).getD []) := by
  constructor
  · rw [get_raw_data_ty6_python, rows_from_isSome]
    simp only [Nat.zero_add]
  · intro g hg
    rw [get_raw_data_ty6_python] at hg
    have := rows_from_eq_some _ ny 0 g hg
    simpa only [Nat.zero_add] using this

/-! ### Claim C8 -/

/-- C8: the binary-header parser checks that the declared pixel count
(uint32 at absolute offset 292) equals the product of the declared image
width and height (`im_npx_x`, `im_npx_y`: int16 at offsets 282 and 284); a
mismatch raises the `ValueError` the specification calls `FormatError`, and
a match returns the header mapping. -/
theorem c8_pixel_count_check (F : ByteStream) :
    ((readU32 F 292 : Int) ≠ readI16 F 282 * readI16 F 284
      → read_binary_header F = .error (.valueError "Cannot interpret binary header"))
    ∧ ((readU32 F 292 : Int) = readI16 F 282 * readI16 F 284
      → ∃ hd, read_binary_header F = .ok hd
          ∧ hd.im_npx_x = readI16 F 282 ∧ hd.im_npx_y = readI16 F 284) := by
  constructor
  · intro h
    unfold read_binary_header
    rw [if_neg h]
  · intro h
    unfold read_binary_header
    rw [if_pos h]
    exact ⟨_, rfl, rfl, rfl⟩

theorem c8_pixel_count_check_witness :
    ∃ hd, read_binary_header zstream = .ok hd
      ∧ hd.im_npx_x = readI16 zstream 282 ∧ hd.im_npx_y = readI16 zstream 284 :=
  (c8_pixel_count_check zstream).2 (by decide)

/-! ### Claim C9 -/

/-- C9: the format sniffer is a total boolean predicate equal to the
specification's contract `understandSpec`: it returns `false` on a failed
read/decode (`none`), on fewer than two header lines, on a first line whose
first two blank-separated tokens are not `"OD" "SAPPHIRE"`, and on a second
line whose key before `=` is not `"COMPRESSION"`; it returns `true` exactly
when all these checks pass. -/
theorem c9_sniffer_totality : ∀ contents, understand contents = understandSpec contents := by
  intro contents
  cases contents with
  | none => rfl
  | some hdr =>
    simp only [understand, understandSpec]
    split_ifs with h1 h2 h3
    · rw [decide_eq_false (show ¬ (2 ≤ (splitlinesGo hdr []).length) by omega)]
      simp only [Bool.false_and]
    · rcases h2 with h | h | h
      · rw [decide_eq_false
          (show ¬ (2 ≤ (pysplitGo ((splitlinesGo hdr []).getD 0 []) []).length) by omega)]
        simp only [Bool.false_and, Bool.and_false]
      · rw [decide_eq_false h]
        simp only [Bool.false_and, Bool.and_false]
      · rw [decide_eq_false h]
        simp only [Bool.false_and, Bool.and_false]
    · rw [decide_eq_false h3]
      simp only [Bool.false_and, Bool.and_false]
    · push_neg at h2
      obtain ⟨a1, a2, a3⟩ := h2
      rw [not_not] at h3
      rw [decide_eq_true (show 2 ≤ (splitlinesGo hdr []).length by omega),
        decide_eq_true (show 2 ≤ (pysplitGo ((splitlinesGo hdr []).getD 0 []) []).length
          by omega),
        decide_eq_true a2, decide_eq_true a3, decide_eq_true h3]
      simp only [Bool.true_and]

/-! ### Claim C10 -/

/-- C10: `get_raw_data` accepts exactly the compression tags whose stripped
value starts with `"TY6"`; every other tag raises the
`NotImplementedError` that the specification's taxonomy calls
`DecodeError`, and a successful dispatch never selects any scheme other
than TY6. -/
theorem c10_unsupported_compression (comp : List Char) :
    ((pystrip comp).take 3 ≠ ['T', 'Y', '6']
      → get_raw_data comp = .error (.notImplementedError "unsupported compression"))
    ∧ (∀ r, get_raw_data comp = .ok r
      → r = CompressionScheme.ty6 ∧ (pystrip comp).take 3 = ['T', 'Y', '6']) := by
  constructor
  · intro h
    unfold get_raw_data
    rw [if_neg h]
  · intro r h
    unfold get_raw_data at h
    by_cases hc : (pystrip comp).take 3 = ['T', 'Y', '6']
    · rw [if_pos hc] at h
      injection h with h'
      exact ⟨h'.symm, hc⟩
    · rw [if_neg hc] at h
      exact Except.noConfusion h

theorem c10_unsupported_compression_witness :
    get_raw_data ['T', 'Y', '5'] = .error (.notImplementedError "unsupported compression") :=
  (c10_unsupported_compression ['T', 'Y', '5']).1 (by decide)

/-! ### Claim C5 -/

/-- C5 (code bug): on `c5file` the binary-header parser succeeds, but the
value returned under the key `chip_npx_y` is not the int16 at that field's
own documented offset 280 (which holds 5); it is instead the `im_npx_y`
value read at offset 284 (which holds 3) — source line 377 writes the
`im_npx_y` variable into the `chip_npx_y` slot of the returned dict. -/
theorem c5_chip_npx_y_mismatch :
    ((read_binary_header c5file).toOption.map (fun hd => hd.chip_npx_y)
      ≠ some (chip_npx_y_at_offset c5file))
    ∧ ((read_binary_header c5file).toOption.map (fun hd => hd.chip_npx_y)
      = (read_binary_header c5file).toOption.map (fun hd => hd.im_npx_y))
    ∧ ((read_binary_header c5file).toOption.isSome = true)
    ∧ chip_npx_y_at_offset c5file = 5
    ∧ (read_binary_header c5file).toOption.map (fun hd => hd.chip_npx_y) = some 3 := by
  refine ⟨by decide, by decide, by decide, by decide, by decide⟩

end RodReader
